import Mathlib

/-!
Verification of `lib/utils/rule-loader.js` (Ethlint).

Shallow embedding conventions:
* JS strings are Lean `String`s.
* JS objects used as dictionaries are association lists `List (String × β)`
  in insertion order; property read is `alistGet`, property write is `setKey`.
* `undefined` is `Option.none` at every place the JS code can produce it.
* The host module-resolution capability (`require`) and the external schema
  validator (`isAValidSharableConfig`, from `config-inspector`) are external
  collaborators of this subsystem; they are passed in as an environment.
* Thrown JS errors are modelled by an error type returned in `Except` /
  paired `Option`; since the shared registry is module-level mutable state
  that survives a throw, `load` returns the registry reached at the moment
  of the throw together with the error.
-/

set_option autoImplicit false

/-- The `constants` table of the source, field `SOLIUM_RULESET_ALL`. -/
def SOLIUM_RULESET_ALL : String := "solium:all"

/-- The `constants` table of the source, field `SOLIUM_RULESET_RECOMMENDED`. -/
def SOLIUM_RULESET_RECOMMENDED : String := "solium:all"

/-- The `constants` table of the source, field `SOLIUM_CORE_RULES_DIRNAME`. -/
def SOLIUM_CORE_RULES_DIRNAME : String := "rules"

/-- The `constants` table of the source, field `SOLIUM_PLUGIN_PREFIX`. -/
def SOLIUM_PLUGIN_PREFIX : String := "solium-plugin-"

/-- The `constants` table of the source, field `SOLIUM_SHARABLE_CONFIG_PREFIX`. -/
def SOLIUM_SHARABLE_CONFIG_PREFIX : String := "solium-config-"

/-- `constants.SOLIUM_CORE_RULES_DIRPATH = "../" + SOLIUM_CORE_RULES_DIRNAME`. -/
def SOLIUM_CORE_RULES_DIRPATH : String := "../" ++ SOLIUM_CORE_RULES_DIRNAME

/-- Helper for `jsSplit`: walks the character list, `acc` holds the current
segment reversed, exactly like the JS `String.prototype.split` with a
one-character separator (empty segments included). -/
def jsSplitAux (sep : Char) : List Char → List Char → List (List Char)
  | [], acc => [acc.reverse]
  | c :: cs, acc =>
    if c = sep then acc.reverse :: jsSplitAux sep cs []
    else jsSplitAux sep cs (c :: acc)

/-- JS `s.split(sep)` for a one-character separator `sep`. -/
def jsSplit (sep : Char) (s : String) : List String :=
  (jsSplitAux sep s.data []).map String.mk

/-- JS `s.indexOf(c) > -1` for a one-character needle: `c` occurs in `s`. -/
def jsIncludes (c : Char) (s : String) : Bool :=
  decide (c ∈ s.data)

/-- JS object property read: first binding of key `k`, `none` when absent
(the JS read then yields `undefined`). -/
def alistGet {β : Type} (k : String) : List (String × β) → Option β
  | [] => none
  | p :: ps => if p.1 = k then some p.2 else alistGet k ps

/-- JS object property write `obj[k] = v`: overwrite the binding of `k`
if present, otherwise append a new binding (JS insertion order). -/
def setKey {β : Type} (k : String) (v : β) : List (String × β) → List (String × β)
  | [] => [(k, v)]
  | p :: ps => if p.1 = k then (k, v) :: ps else p :: setKey k v ps

/-- Outcome of the host `require` capability on one specifier: the exported
module value, a `MODULE_NOT_FOUND` failure (`e.code === "MODULE_NOT_FOUND"`),
or any other load-time failure carrying the message `e.message`. -/
inductive RequireResult (μ : Type) where
  | ok (exported : μ)
  | moduleNotFound (message : String)
  | loadFailure (message : String)

/-- An externally acquired config module as far as this subsystem reads it:
only its `rules` property is accessed, `none` when the export lacks it. -/
structure SharableConfigModule (ρ : Type) where
  rules : Option ρ

/-- The external collaborators of `resolveUpstream`: the host `require`,
the external schema validator `isAValidSharableConfig`, and the textual
rendering `util.inspect(isAValidSharableConfig.errors)` of the validator
errors left behind after validating a given object. -/
structure UpstreamEnv (ρ : Type) where
  require : String → RequireResult (SharableConfigModule ρ)
  isAValidSharableConfig : SharableConfigModule ρ → Bool
  inspectedErrors : SharableConfigModule ρ → String

/-- One character of the core-ruleset identifier class `[a-z_]`. -/
def coreRulesetChar (c : Char) : Bool :=
  (decide ('a' ≤ c) && decide (c ≤ 'z')) || c = '_'

/-- The test `coreRulesetRegExp.test(upstream)` for `/^solium:[a-z_]+$/`. -/
def coreRulesetRegExpTest (s : String) : Bool :=
  match s.data with
  | 's' :: 'o' :: 'l' :: 'i' :: 'u' :: 'm' :: ':' :: rest =>
      !rest.isEmpty && rest.all coreRulesetChar
  | _ => false

/-- The core-ruleset module specifier
`"../../config/rulesets/solium-" + upstream.split(":")[1]`. -/
def coreRulesetPath (upstream : String) : String :=
  "../../config/rulesets/solium-" ++ (jsSplit ':' upstream).getD 1 ""

/-- The message thrown when a core-ruleset reference cannot be acquired. -/
def coreRulesetFailMessage (upstream : String) : String :=
  "\"" ++ upstream ++ "\" is not a core ruleset."

/-- The message thrown when the sharable-config package is not installed. -/
def sharableNotInstalledMessage (configName : String) : String :=
  "The sharable config \"" ++ configName ++ "\" is not installed. " ++
  "If Solium is installed globally, install the config globally using " ++
  "\"npm install -g " ++ configName ++ "\". Else install locally using " ++
  "\"npm install --save-dev " ++ configName ++ "\"."

/-- The message thrown when the sharable-config package loads with an error. -/
def sharableLoadFailMessage (configName msg : String) : String :=
  "The sharable config \"" ++ configName ++ "\" could not be loaded: " ++ msg

/-- The message thrown when the loaded sharable config fails validation. -/
def invalidSharableMessage (configName errs : String) : String :=
  "Invalid sharable config \"" ++ configName ++ "\". AJV message:\n" ++ errs

/-- `resolveUpstream(upstream)`: classify the reference as a core ruleset or
a sharable config and load its `rules` mapping; every thrown `Error(msg)`
becomes `Except.error msg`. -/
def resolveUpstream {ρ : Type} (env : UpstreamEnv ρ) (upstream : String) :
    Except String (Option ρ) :=
  if coreRulesetRegExpTest upstream then
    match env.require (coreRulesetPath upstream) with
    | .ok m => .ok m.rules
    | .moduleNotFound _ => .error (coreRulesetFailMessage upstream)
    | .loadFailure _ => .error (coreRulesetFailMessage upstream)
  else
    match env.require (SOLIUM_SHARABLE_CONFIG_PREFIX ++ upstream) with
    | .moduleNotFound _ =>
        .error (sharableNotInstalledMessage (SOLIUM_SHARABLE_CONFIG_PREFIX ++ upstream))
    | .loadFailure msg =>
        .error (sharableLoadFailMessage (SOLIUM_SHARABLE_CONFIG_PREFIX ++ upstream) msg)
    | .ok config =>
        if env.isAValidSharableConfig config then .ok config.rules
        else .error (invalidSharableMessage (SOLIUM_SHARABLE_CONFIG_PREFIX ++ upstream)
          (env.inspectedErrors config))

/-- The `docs` object of a rule definition as read by `resolvePluginConfig`. -/
structure RuleDocs where
  type : String
deriving DecidableEq

/-- The `meta` object of a rule definition as read by `resolvePluginConfig`. -/
structure RuleMeta where
  docs : RuleDocs
deriving DecidableEq

/-- A plugin rule definition as read by `resolvePluginConfig`. -/
structure PluginRuleDef where
  meta : RuleMeta
deriving DecidableEq

/-- A plugin module as read by `resolvePluginConfig`: its `rules` table. -/
structure PluginModule where
  rules : List (String × PluginRuleDef)
deriving DecidableEq

/-- `resolvePluginConfig(name, plugin)`: iterate `Object.keys(plugin.rules)`
in order, writing `config[name + "/" + ruleName] = plugin.rules[ruleName].meta.docs.type`
into a fresh object. -/
def resolvePluginConfig (name : String) (plugin : PluginModule) :
    List (String × String) :=
  plugin.rules.foldl
    (fun config p => setKey (name ++ "/" ++ p.1) p.2.meta.docs.type config) []

/-- A loaded plugin object as read by `load`: its `rules` property, which a
malformed plugin may lack (`none`, read as `undefined`); rule values are
opaque implementations of type `α`. -/
structure LoadedPlugin (α : Type) where
  rules : Option (List (String × α))
deriving DecidableEq

/-- The caller-supplied table of already-loaded plugins. -/
abbrev PluginTable (α : Type) := List (String × LoadedPlugin α)

/-- The shared rule-definition registry `ruleDefs`: values are `Option α`
because the plugin branch of `load` can bind a name to `undefined`. -/
abbrev Registry (α : Type) := List (String × Option α)

/-- Errors observable from `load`: `thrown msg` for `throw new Error(msg)`
in the source, `typeErrorUndefinedRead prop` for the runtime `TypeError`
raised by reading property `prop` of `undefined`. -/
inductive JsError where
  | thrown (message : String)
  | typeErrorUndefinedRead (prop : String)
deriving DecidableEq

/-- The path `path.join(constants.SOLIUM_CORE_RULES_DIRPATH, name)` computed
(and then never used) by the core branch of `load`. -/
def coreRuleFilePath (name : String) : String :=
  SOLIUM_CORE_RULES_DIRPATH ++ "/" ++ name

/-- One iteration of the `forEach` body of `load`.

Plugin branch (`name.indexOf("/") > -1`): `plugins[pluginName]` is a plain
property read on the supplied table and can never throw, so the `try/catch`
around it (whose `catch` would throw `Unable to load Plugin ...`) is
unreachable; when the plugin is absent the read yields `undefined` and the
subsequent `plugin.rules` access — outside the `try` — raises a `TypeError`.
When `plugin.rules` is itself `undefined`, `plugin.rules[ruleName]` raises a
`TypeError`. Otherwise `ruleDefs[name] = plugin.rules[ruleName]` is executed
with no existence or shape check on the rule.

Core branch: the source computes `ruleFile` but the `require` statement in
the `try` block is commented out, so the branch performs no registry write
and its `catch` (`Unable to read ...`) is unreachable: a no-op. -/
def loadOne {α : Type} (plugins : PluginTable α) (ruleDefs : Registry α)
    (name : String) : Except JsError (Registry α) :=
  if jsIncludes '/' name then
    match alistGet (SOLIUM_PLUGIN_PREFIX ++ (jsSplit '/' name).getD 0 "") plugins with
    | none => .error (.typeErrorUndefinedRead "rules")
    | some plugin =>
        match plugin.rules with
        | none => .error (.typeErrorUndefinedRead ((jsSplit '/' name).getD 1 ""))
        | some pluginRules =>
            .ok (setKey name (alistGet ((jsSplit '/' name).getD 1 "") pluginRules) ruleDefs)
  else
    let _ruleFile := coreRuleFilePath name
    .ok ruleDefs

/-- The `forEach` loop of `load`: process entries in input order; a throw
stops the loop, leaving the registry as mutated so far. -/
def loadAux {α : Type} (plugins : PluginTable α) :
    List String → Registry α → Registry α × Option JsError
  | [], ruleDefs => (ruleDefs, none)
  | name :: rest, ruleDefs =>
    match loadOne plugins ruleDefs name with
    | .ok ruleDefs2 => loadAux plugins rest ruleDefs2
    | .error e => (ruleDefs, some e)

/-- `load(listOfRules, plugins)`: the shared registry is threaded explicitly;
the result is the registry after the call (partial when an error is thrown)
together with the thrown error, if any. On success the source returns the
registry itself. -/
def load {α : Type} (listOfRules : List String) (plugins : PluginTable α)
    (ruleDefs : Registry α) : Registry α × Option JsError :=
  loadAux plugins listOfRules ruleDefs

/-- The keys of the statically populated `ruleDefs` catalog: the enumerated
core rule names required at module load time (their values are the loaded
core rule modules, opaque here). -/
def coreRuleNames : List String :=
  ["arg-overflow", "array-declarations", "blank-lines", "camelcase",
   "comma-whitespace", "conditionals-whitespace", "constructor",
   "deprecated-suicide", "double-quotes", "emit", "error-reason",
   "function-order", "function-whitespace", "imports-on-top", "indentation",
   "lbrace", "linebreak-style", "max-len", "mixedcase", "no-constant",
   "no-empty-blocks", "no-experimental", "no-trailing-whitespace",
   "no-unused-vars", "no-with", "operator-whitespace", "pragma-on-top",
   "quotes", "semicolon-whitespace", "uppercase", "value-in-payable",
   "variable-declarations", "visibility-first", "whitespace"]

/-- A demonstration environment whose `require` always reports
`MODULE_NOT_FOUND`, used to instantiate the `resolveUpstream` theorems. -/
def demoEnvNotFound : UpstreamEnv Nat :=
  ⟨fun _ => .moduleNotFound "module not found", fun _ => true, fun _ => ""⟩

/-! Helper lemmas about the JS object and string model. -/

theorem alistGet_setKey_self {β : Type} (k : String) (v : β) :
    ∀ l : List (String × β), alistGet k (setKey k v l) = some v := by
  intro l
  induction l with
  | nil => simp [setKey, alistGet]
  | cons p ps ih =>
      by_cases h : p.1 = k
      · simp [setKey, alistGet, h]
      · simp [setKey, alistGet, h, ih]

theorem alistGet_setKey_ne {β : Type} (k j : String) (v : β) (hkj : k ≠ j) :
    ∀ l : List (String × β), alistGet k (setKey j v l) = alistGet k l := by
  intro l
  have hjk : ¬ j = k := fun h => hkj (Eq.symm h)
  induction l with
  | nil => simp [setKey, alistGet, hjk]
  | cons p ps ih =>
      by_cases h : p.1 = j
      · have hpk : ¬ p.1 = k := by rw [h]; exact hjk
        simp [setKey, alistGet, h, hjk, hpk]
      · by_cases hpk : p.1 = k
        · simp [setKey, alistGet, h, hpk, hkj]
        · simp [setKey, alistGet, h, hpk, hkj, ih]

theorem setKey_of_not_mem {β : Type} (k : String) (v : β) :
    ∀ l : List (String × β), k ∉ l.map Prod.fst → setKey k v l = l ++ [(k, v)] := by
  intro l
  induction l with
  | nil => intro _; rfl
  | cons p ps ih =>
      intro hk
      have hpk : ¬ p.1 = k := by
        intro h
        exact hk (by simp [h])
      have hk2 : k ∉ ps.map Prod.fst := by
        intro h
        exact hk (by simp [h])
      simp [setKey, hpk, ih hk2]

theorem jsSplitAux_no_sep (sep : Char) :
    ∀ (r acc : List Char), sep ∉ r → jsSplitAux sep r acc = [acc.reverse ++ r] := by
  intro r
  induction r with
  | nil => intro acc _; simp [jsSplitAux]
  | cons c cs ih =>
      intro acc h
      have hc : ¬ c = sep := by
        intro hc
        exact (by simp [hc] at h)
      have hcs : sep ∉ cs := by
        intro hm
        exact h (List.mem_cons_of_mem _ hm)
      simp [jsSplitAux, hc, ih (c :: acc) hcs]

theorem jsSplitAux_append (sep : Char) :
    ∀ (l acc r : List Char), sep ∉ l →
      jsSplitAux sep (l ++ sep :: r) acc = (acc.reverse ++ l) :: jsSplitAux sep r [] := by
  intro l
  induction l with
  | nil => intro acc r _; simp [jsSplitAux]
  | cons c cs ih =>
      intro acc r h
      have hc : ¬ c = sep := by
        intro hc
        exact (by simp [hc] at h)
      have hcs : sep ∉ cs := by
        intro hm
        exact h (List.mem_cons_of_mem _ hm)
      simp [jsSplitAux, hc, ih (c :: acc) r hcs]

theorem jsIncludes_eq_false_iff (c : Char) (s : String) :
    jsIncludes c s = false ↔ c ∉ s.data := by
  simp [jsIncludes]

theorem jsSplit_no_sep (sep : Char) (s : String) (h : jsIncludes sep s = false) :
    jsSplit sep s = [s] := by
  have hm : sep ∉ s.data := (jsIncludes_eq_false_iff sep s).mp h
  simp [jsSplit, jsSplitAux_no_sep sep s.data [] hm]

theorem jsSplit_qualified (a b : String)
    (ha : jsIncludes '/' a = false) (hb : jsIncludes '/' b = false) :
    jsSplit '/' (a ++ "/" ++ b) = [a, b] := by
  have hma : ('/' : Char) ∉ a.data := (jsIncludes_eq_false_iff _ a).mp ha
  have hmb : ('/' : Char) ∉ b.data := (jsIncludes_eq_false_iff _ b).mp hb
  have hdata : (a ++ "/" ++ b).data = a.data ++ '/' :: b.data := by
    simp [String.data_append]
  simp [jsSplit, hdata, jsSplitAux_append '/' a.data [] b.data hma,
    jsSplitAux_no_sep '/' b.data [] hmb]

theorem jsIncludes_qualified (a b : String) :
    jsIncludes '/' (a ++ "/" ++ b) = true := by
  have hdata : (a ++ "/" ++ b).data = a.data ++ '/' :: b.data := by
    simp [String.data_append]
  simp [jsIncludes, hdata]

theorem string_append_left_cancel {n a b : String} (h : n ++ a = n ++ b) : a = b := by
  have hd : n.data ++ a.data = n.data ++ b.data := by
    have := congrArg String.data h
    simpa [String.data_append] using this
  have : a.data = b.data := List.append_cancel_left hd
  exact congrArg String.mk this

theorem qualifiedKey_injective (name : String) :
    Function.Injective (fun rn => name ++ "/" ++ rn) := by
  intro a b h
  have h2 : (name ++ "/") ++ a = (name ++ "/") ++ b := h
  exact string_append_left_cancel h2

theorem foldl_setKey_eq_append (f : String × PluginRuleDef → String × String) :
    ∀ (rules : List (String × PluginRuleDef)) (config : List (String × String)),
      (∀ p ∈ rules, (f p).1 ∉ config.map Prod.fst) →
      (rules.map (fun p => (f p).1)).Nodup →
      rules.foldl (fun cfg p => setKey (f p).1 (f p).2 cfg) config
        = config ++ rules.map f := by
  intro rules
  induction rules with
  | nil => intro config _ _; simp
  | cons p ps ih =>
      intro config hdis hnd
      have hp : (f p).1 ∉ config.map Prod.fst := hdis p (List.mem_cons_self p ps)
      have hstep : setKey (f p).1 (f p).2 config = config ++ [((f p).1, (f p).2)] :=
        setKey_of_not_mem _ _ config hp
      have hnd2 : (ps.map (fun q => (f q).1)).Nodup := (List.nodup_cons.mp hnd).2
      have hpnot : (f p).1 ∉ ps.map (fun q => (f q).1) := (List.nodup_cons.mp hnd).1
      have hdis2 : ∀ q ∈ ps, (f q).1 ∉ (config ++ [((f p).1, (f p).2)]).map Prod.fst := by
        intro q hq
        simp only [List.map_append, List.mem_append, List.map_cons, List.map_nil,
          List.mem_singleton, List.mem_cons]
        intro hmem
        rcases hmem with hmem | hmem | hmem
        · exact hdis q (List.mem_cons_of_mem p hq) hmem
        · have hqmem : (f q).1 ∈ ps.map (fun r => (f r).1) :=
            List.mem_map_of_mem (fun r => (f r).1) hq
          exact hpnot (hmem ▸ hqmem)
        · simp at hmem
      calc ps.foldl (fun cfg q => setKey (f q).1 (f q).2 cfg) (setKey (f p).1 (f p).2 config)
          = ps.foldl (fun cfg q => setKey (f q).1 (f q).2 cfg) (config ++ [((f p).1, (f p).2)]) := by
            rw [hstep]
        _ = (config ++ [((f p).1, (f p).2)]) ++ ps.map f := ih _ hdis2 hnd2
        _ = config ++ (f p) :: ps.map f := by simp

theorem resolvePluginConfig_eq_map (name : String) (plugin : PluginModule)
    (hnd : (plugin.rules.map Prod.fst).Nodup) :
    resolvePluginConfig name plugin =
      plugin.rules.map (fun p => (name ++ "/" ++ p.1, p.2.meta.docs.type)) := by
  have hndq : (plugin.rules.map
      (fun p => ((fun q : String × PluginRuleDef =>
        (name ++ "/" ++ q.1, q.2.meta.docs.type)) p).1)).Nodup := by
    have : plugin.rules.map
        (fun p : String × PluginRuleDef => name ++ "/" ++ p.1)
        = (plugin.rules.map Prod.fst).map (fun rn => name ++ "/" ++ rn) := by
      simp
    simpa [this] using (List.Nodup.map (qualifiedKey_injective name) hnd)
  have h := foldl_setKey_eq_append
    (fun q : String × PluginRuleDef => (name ++ "/" ++ q.1, q.2.meta.docs.type))
    plugin.rules [] (by simp) hndq
  simpa [resolvePluginConfig] using h

theorem loadOne_no_slash {α : Type} (plugins : PluginTable α) (reg : Registry α)
    (name : String) (h : jsIncludes '/' name = false) :
    loadOne plugins reg name = .ok reg := by
  simp [loadOne, h]

theorem loadOne_preserves {α : Type} (plugins : PluginTable α) (reg reg2 : Registry α)
    (name k : String) (hne : k ≠ name) (hok : loadOne plugins reg name = .ok reg2) :
    alistGet k reg2 = alistGet k reg := by
  unfold loadOne at hok
  split at hok
  · split at hok
    · cases hok
    · split at hok
      · cases hok
      · injection hok with h2
        rw [← h2]
        exact alistGet_setKey_ne k name _ hne reg
  · injection hok with h2
    rw [← h2]

theorem loadAux_preserves {α : Type} (plugins : PluginTable α) :
    ∀ (names : List String) (reg : Registry α) (k : String), k ∉ names →
      alistGet k (loadAux plugins names reg).1 = alistGet k reg := by
  intro names
  induction names with
  | nil => intro reg k _; rfl
  | cons n ns ih =>
      intro reg k hk
      have hkn : k ≠ n := fun h => hk (by simp [h])
      have hkns : k ∉ ns := fun h => hk (List.mem_cons_of_mem _ h)
      unfold loadAux
      cases hstep : loadOne plugins reg n with
      | ok reg2 =>
          calc alistGet k (loadAux plugins ns reg2).1
              = alistGet k reg2 := ih reg2 k hkns
            _ = alistGet k reg := loadOne_preserves plugins reg reg2 n k hkn hstep
      | error e => rfl

theorem coreRuleNames_no_slash :
    ∀ name ∈ coreRuleNames, jsIncludes '/' name = false := by
  decide

theorem load_no_slash_single {α : Type} (plugins : PluginTable α) (reg : Registry α)
    (name : String) (h : jsIncludes '/' name = false) :
    load [name] plugins reg = (reg, none) := by
  simp [load, loadAux, loadOne_no_slash plugins reg name h]

theorem loadOne_plugin {α : Type} (plugins : PluginTable α) (reg : Registry α)
    (name : String) (plugin : LoadedPlugin α) (pluginRules : List (String × α))
    (hslash : jsIncludes '/' name = true)
    (hplug : alistGet (SOLIUM_PLUGIN_PREFIX ++ (jsSplit '/' name).getD 0 "") plugins
      = some plugin)
    (hrules : plugin.rules = some pluginRules) :
    loadOne plugins reg name
      = .ok (setKey name (alistGet ((jsSplit '/' name).getD 1 "") pluginRules) reg) := by
  simp only [loadOne, hslash, if_true, hplug, hrules]

/-- Claim C9: the exported constants `SOLIUM_RULESET_ALL` and
`SOLIUM_RULESET_RECOMMENDED` are both the string `"solium:all"`, so an
extends reference to the recommended ruleset resolves to exactly the same
core ruleset module (same module specifier, same `resolveUpstream` outcome
in every environment) as a reference to the all ruleset. -/
theorem solium_recommended_is_all :
    SOLIUM_RULESET_RECOMMENDED = "solium:all" ∧
    SOLIUM_RULESET_ALL = "solium:all" ∧
    coreRulesetPath SOLIUM_RULESET_RECOMMENDED = coreRulesetPath SOLIUM_RULESET_ALL ∧
    ∀ (ρ : Type) (env : UpstreamEnv ρ),
      resolveUpstream env SOLIUM_RULESET_RECOMMENDED
        = resolveUpstream env SOLIUM_RULESET_ALL :=
  ⟨rfl, rfl, rfl, fun _ _ => rfl⟩

/-- Claim C1, evaluated on the code (code defect): the claim says
`load(["unknown-core-rule"], {})` fails with a `RuleLoadError` and that no
entries for later names are added. In the source the `require` of the core
branch is commented out, so the branch is a no-op and its `catch` is
unreachable: the call succeeds, returns the registry unchanged, and names
after the unknown one are still processed (a later plugin entry is added). -/
theorem load_unknown_core_rule_noop :
    ∀ reg : Registry String,
      load ["unknown-core-rule"] [] reg = (reg, none) ∧
      alistGet "a/b" (load ["unknown-core-rule", "a/b"]
        [("solium-plugin-a", ⟨some [("b", "implB")]⟩)] reg).1 = some (some "implB") := by
  intro reg
  constructor
  · exact load_no_slash_single [] reg "unknown-core-rule" (by decide)
  · have h1 : loadOne [("solium-plugin-a",
        (⟨some [("b", "implB")]⟩ : LoadedPlugin String))] reg "unknown-core-rule" = .ok reg :=
      loadOne_no_slash _ reg "unknown-core-rule" (by decide)
    have h2 : loadOne [("solium-plugin-a",
        (⟨some [("b", "implB")]⟩ : LoadedPlugin String))] reg "a/b"
        = .ok (setKey "a/b" (some "implB") reg) :=
      loadOne_plugin _ reg "a/b" ⟨some [("b", "implB")]⟩ [("b", "implB")]
        (by decide) (by decide) rfl
    simp only [load, loadAux, h1, h2]
    exact alistGet_setKey_self "a/b" (some "implB") reg

/-- Claim C2, evaluated on the code (code defect): the claim says a missing
plugin makes `load` fail with a `PluginLoadError` naming the expected plugin
package. In the source `plugins[pluginName]` is a plain property read that
never throws, so the `catch` that would raise `Unable to load Plugin ...` is
dead; the absent plugin yields `undefined` and the `plugin.rules` access
outside the `try` raises a raw `TypeError` instead. The registry does gain
no new entry for the qualified name. -/
theorem load_missing_plugin_typeerror :
    ∀ reg : Registry String,
      load ["pluginA/ruleB"] [] reg
        = (reg, some (JsError.typeErrorUndefinedRead "rules")) ∧
      (load ["pluginA/ruleB"] [] reg).2
        ≠ some (JsError.thrown "Unable to load Plugin \"solium-plugin-pluginA\".") := by
  intro reg
  have h : loadOne ([] : PluginTable String) reg "pluginA/ruleB"
      = .error (.typeErrorUndefinedRead "rules") := by
    have hnone : alistGet (SOLIUM_PLUGIN_PREFIX ++ (jsSplit '/' "pluginA/ruleB").getD 0 "")
        ([] : PluginTable String) = none := rfl
    simp only [loadOne, show jsIncludes '/' "pluginA/ruleB" = true from by decide,
      if_true, hnone]
  constructor
  · simp only [load, loadAux, h]
  · simp only [load, loadAux, h]
    decide

/-- Claim C7: a pre-seeded core rule name given to `load` leaves the registry
unchanged (the core branch is a no-op, so in particular its binding keeps the
same key and value), the call is idempotent, and an entry whose key is not in
the input list is never touched by `load`, whatever the list and plugins. -/
theorem load_preserves_seeded_core :
    (∀ (α : Type) (reg : Registry α) (name : String), name ∈ coreRuleNames →
        load [name] ([] : PluginTable α) reg = (reg, none)) ∧
    (∀ (α : Type) (reg : Registry α) (name : String), name ∈ coreRuleNames →
        load [name] ([] : PluginTable α) (load [name] ([] : PluginTable α) reg).1
          = load [name] ([] : PluginTable α) reg) ∧
    (∀ (α : Type) (l : List String) (plugins : PluginTable α) (reg : Registry α)
        (k : String), k ∉ l →
        alistGet k (load l plugins reg).1 = alistGet k reg) := by
  refine ⟨?_, ?_, ?_⟩
  · intro α reg name hname
    exact load_no_slash_single [] reg name (coreRuleNames_no_slash name hname)
  · intro α reg name hname
    have h := load_no_slash_single ([] : PluginTable α) reg name
      (coreRuleNames_no_slash name hname)
    rw [h]
    exact load_no_slash_single [] reg name (coreRuleNames_no_slash name hname)
  · intro α l plugins reg k hk
    exact loadAux_preserves plugins l reg k hk

/-- Witness for C7 at concrete inputs. -/
theorem load_preserves_seeded_core_witness :
    ("camelcase" ∈ coreRuleNames ∧
      load ["camelcase"] ([] : PluginTable Nat) [("camelcase", some 1)]
        = ([("camelcase", some 1)], none)) ∧
    ("uppercase" ∉ ["camelcase"] ∧
      alistGet "uppercase"
          (load ["camelcase"] ([] : PluginTable Nat) [("uppercase", some 2)]).1
        = alistGet "uppercase" [("uppercase", some 2)]) :=
  ⟨⟨by decide, load_preserves_seeded_core.1 Nat [("camelcase", some 1)] "camelcase" (by decide)⟩,
   ⟨by decide, load_preserves_seeded_core.2.2 Nat ["camelcase"] [] [("uppercase", some 2)]
      "uppercase" (by decide)⟩⟩

/-- Claim C3: when the owning plugin of a plugin-qualified name is present in
the supplied table and exposes a `rules` table, `load` binds the registry
entry for the full qualified name to `plugin.rules[ruleName]` — the bare
lookup result, with no existence or shape check (`undefined` is bound as is)
— and returns the registry with no error. -/
theorem load_plugin_rule_binding {α : Type} (name : String) (plugins : PluginTable α)
    (plugin : LoadedPlugin α) (pluginRules : List (String × α)) (reg : Registry α)
    (hslash : jsIncludes '/' name = true)
    (hplug : alistGet (SOLIUM_PLUGIN_PREFIX ++ (jsSplit '/' name).getD 0 "") plugins
      = some plugin)
    (hrules : plugin.rules = some pluginRules) :
    load [name] plugins reg
      = (setKey name (alistGet ((jsSplit '/' name).getD 1 "") pluginRules) reg, none) ∧
    alistGet name (load [name] plugins reg).1
      = some (alistGet ((jsSplit '/' name).getD 1 "") pluginRules) := by
  have h := loadOne_plugin plugins reg name plugin pluginRules hslash hplug hrules
  constructor
  · simp only [load, loadAux, h]
  · simp only [load, loadAux, h]
    exact alistGet_setKey_self name _ reg

/-- Witness for C3: `load(["pluginA/ruleB"], {"solium-plugin-pluginA":
{rules: {ruleB: impl}}})` binds `"pluginA/ruleB" -> impl` exactly. -/
theorem load_plugin_rule_binding_witness :
    jsIncludes '/' "pluginA/ruleB" = true ∧
    load ["pluginA/ruleB"]
        [("solium-plugin-pluginA", (⟨some [("ruleB", 42)]⟩ : LoadedPlugin Nat))] []
      = ([("pluginA/ruleB", some 42)], none) := by
  refine ⟨by decide, ?_⟩
  have h := (load_plugin_rule_binding "pluginA/ruleB"
    [("solium-plugin-pluginA", (⟨some [("ruleB", (42 : Nat))]⟩ : LoadedPlugin Nat))]
    ⟨some [("ruleB", 42)]⟩ [("ruleB", 42)] [] (by decide) (by decide) rfl).1
  exact h.trans (by decide)

/-- Claim C10: a name with two or more `/` separators is still routed to the
plugin branch; only the first segment enters the plugin package lookup and
only the second segment is used as the bare rule name (the conclusion depends
on no later segment), and the registry entry is bound under the full
multi-segment name. -/
theorem load_multisegment_name {α : Type} (name : String) (plugins : PluginTable α)
    (plugin : LoadedPlugin α) (pluginRules : List (String × α)) (reg : Registry α)
    (hsegs : 3 ≤ (jsSplit '/' name).length)
    (hplug : alistGet (SOLIUM_PLUGIN_PREFIX ++ (jsSplit '/' name).getD 0 "") plugins
      = some plugin)
    (hrules : plugin.rules = some pluginRules) :
    jsIncludes '/' name = true ∧
    load [name] plugins reg
      = (setKey name (alistGet ((jsSplit '/' name).getD 1 "") pluginRules) reg, none) := by
  have hslash : jsIncludes '/' name = true := by
    cases hcase : jsIncludes '/' name with
    | true => rfl
    | false =>
        rw [jsSplit_no_sep '/' name hcase] at hsegs
        simp at hsegs
  refine ⟨hslash, ?_⟩
  have h := loadOne_plugin plugins reg name plugin pluginRules hslash hplug hrules
  simp only [load, loadAux, h]

/-- Witness for C10 at `"a/b/c"`: the plugin `a` is looked up, the rule `b`
is read, later segment `c` is ignored, and the full name keys the entry. -/
theorem load_multisegment_name_witness :
    3 ≤ (jsSplit '/' "a/b/c").length ∧
    load ["a/b/c"] [("solium-plugin-a", (⟨some [("b", 7)]⟩ : LoadedPlugin Nat))] []
      = ([("a/b/c", some 7)], none) := by
  refine ⟨by decide, ?_⟩
  have h := (load_multisegment_name "a/b/c"
    [("solium-plugin-a", (⟨some [("b", (7 : Nat))]⟩ : LoadedPlugin Nat))]
    ⟨some [("b", 7)]⟩ [("b", 7)] [] (by decide) (by decide) rfl).2
  exact h.trans (by decide)

/-- Claim C4: for a reference matching `/^solium:[a-z_]+$/`, `resolveUpstream`
either returns the `rules` mapping exported by the module at the fixed
ruleset path built from the identifier after the colon, or — whenever the
acquisition does not succeed — fails with the fixed message that contains
the original reference and states it is not a core ruleset; the message is a
function of the reference alone, so the underlying acquisition error is
swallowed. -/
theorem resolveUpstream_core_ruleset {ρ : Type} (env : UpstreamEnv ρ) (upstream : String)
    (h : coreRulesetRegExpTest upstream = true) :
    (∃ m, env.require (coreRulesetPath upstream) = .ok m ∧
        resolveUpstream env upstream = .ok m.rules) ∨
    ((∀ m, env.require (coreRulesetPath upstream) ≠ .ok m) ∧
        resolveUpstream env upstream = .error (coreRulesetFailMessage upstream) ∧
        (∃ pre post, coreRulesetFailMessage upstream = pre ++ upstream ++ post) ∧
        (∃ pre post, coreRulesetFailMessage upstream
            = pre ++ "is not a core ruleset" ++ post)) := by
  have hcontains : ∃ pre post, coreRulesetFailMessage upstream = pre ++ upstream ++ post :=
    ⟨"\"", "\" is not a core ruleset.", rfl⟩
  have hstates : ∃ pre post, coreRulesetFailMessage upstream
      = pre ++ "is not a core ruleset" ++ post := by
    refine ⟨"\"" ++ upstream ++ "\" ", ".", ?_⟩
    have hx : ("\" is not a core ruleset." : String)
        = ("\" " ++ "is not a core ruleset") ++ "." := by decide
    simp only [coreRulesetFailMessage, hx, String.append_assoc]
  unfold resolveUpstream
  rw [if_pos h]
  cases hreq : env.require (coreRulesetPath upstream) with
  | ok m => exact Or.inl ⟨m, rfl, rfl⟩
  | moduleNotFound msg =>
      refine Or.inr ⟨?_, rfl, hcontains, hstates⟩
      intro m hm
      cases hm
  | loadFailure msg =>
      refine Or.inr ⟨?_, rfl, hcontains, hstates⟩
      intro m hm
      cases hm

/-- Witness for C4 in an environment whose acquisition always fails. -/
theorem resolveUpstream_core_ruleset_witness :
    coreRulesetRegExpTest "solium:all" = true ∧
    ((∃ m, demoEnvNotFound.require (coreRulesetPath "solium:all") = .ok m ∧
        resolveUpstream demoEnvNotFound "solium:all" = .ok m.rules) ∨
     ((∀ m, demoEnvNotFound.require (coreRulesetPath "solium:all") ≠ .ok m) ∧
        resolveUpstream demoEnvNotFound "solium:all"
          = .error (coreRulesetFailMessage "solium:all") ∧
        (∃ pre post, coreRulesetFailMessage "solium:all" = pre ++ "solium:all" ++ post) ∧
        (∃ pre post, coreRulesetFailMessage "solium:all"
            = pre ++ "is not a core ruleset" ++ post))) :=
  ⟨by decide, resolveUpstream_core_ruleset demoEnvNotFound "solium:all" (by decide)⟩

/-- Claim C5: for a reference not matching the core-ruleset pattern,
`resolveUpstream` computes the package name as the sharable-config prefix
concatenated with the reference, exactly; a `MODULE_NOT_FOUND` acquisition
failure yields the error mentioning both the global and the local npm
install command for that package name; any other acquisition failure yields
the error containing the underlying message; on success the validator
decides between returning the `rules` mapping of the object and failing
with the error that includes the rendered validator error detail. -/
theorem resolveUpstream_sharable_config {ρ : Type} (env : UpstreamEnv ρ)
    (upstream : String) (h : coreRulesetRegExpTest upstream = false) :
    SOLIUM_SHARABLE_CONFIG_PREFIX ++ upstream = "solium-config-" ++ upstream ∧
    (∀ msg, env.require (SOLIUM_SHARABLE_CONFIG_PREFIX ++ upstream) = .moduleNotFound msg →
        resolveUpstream env upstream
          = .error (sharableNotInstalledMessage (SOLIUM_SHARABLE_CONFIG_PREFIX ++ upstream)) ∧
        (∃ pre post, sharableNotInstalledMessage (SOLIUM_SHARABLE_CONFIG_PREFIX ++ upstream)
            = pre ++ ("npm install -g " ++ (SOLIUM_SHARABLE_CONFIG_PREFIX ++ upstream)) ++ post) ∧
        (∃ pre post, sharableNotInstalledMessage (SOLIUM_SHARABLE_CONFIG_PREFIX ++ upstream)
            = pre ++ ("npm install --save-dev " ++ (SOLIUM_SHARABLE_CONFIG_PREFIX ++ upstream))
              ++ post)) ∧
    (∀ msg, env.require (SOLIUM_SHARABLE_CONFIG_PREFIX ++ upstream) = .loadFailure msg →
        resolveUpstream env upstream
          = .error (sharableLoadFailMessage (SOLIUM_SHARABLE_CONFIG_PREFIX ++ upstream) msg) ∧
        ∃ pre post, sharableLoadFailMessage (SOLIUM_SHARABLE_CONFIG_PREFIX ++ upstream) msg
            = pre ++ msg ++ post) ∧
    (∀ config, env.require (SOLIUM_SHARABLE_CONFIG_PREFIX ++ upstream) = .ok config →
        (env.isAValidSharableConfig config = true →
            resolveUpstream env upstream = .ok config.rules) ∧
        (env.isAValidSharableConfig config = false →
            resolveUpstream env upstream
              = .error (invalidSharableMessage (SOLIUM_SHARABLE_CONFIG_PREFIX ++ upstream)
                  (env.inspectedErrors config)) ∧
            ∃ pre post, invalidSharableMessage (SOLIUM_SHARABLE_CONFIG_PREFIX ++ upstream)
                (env.inspectedErrors config)
                = pre ++ env.inspectedErrors config ++ post)) := by
  have hcond : ¬ (coreRulesetRegExpTest upstream = true) := by
    rw [h]
    exact Bool.false_ne_true
  refine ⟨rfl, ?_, ?_, ?_⟩
  · intro msg hreq
    have hres : resolveUpstream env upstream
        = .error (sharableNotInstalledMessage (SOLIUM_SHARABLE_CONFIG_PREFIX ++ upstream)) := by
      unfold resolveUpstream
      rw [if_neg hcond, hreq]
    refine ⟨hres, ?_, ?_⟩
    · refine ⟨"The sharable config \"" ++ (SOLIUM_SHARABLE_CONFIG_PREFIX ++ upstream)
        ++ "\" is not installed. "
        ++ "If Solium is installed globally, install the config globally using " ++ "\"",
        "\". Else install locally using "
        ++ "\"npm install --save-dev " ++ (SOLIUM_SHARABLE_CONFIG_PREFIX ++ upstream)
        ++ "\".", ?_⟩
      have hx : ("\"npm install -g " : String) = "\"" ++ "npm install -g " := by decide
      simp only [sharableNotInstalledMessage, hx, String.append_assoc]
    · refine ⟨"The sharable config \"" ++ (SOLIUM_SHARABLE_CONFIG_PREFIX ++ upstream)
        ++ "\" is not installed. "
        ++ "If Solium is installed globally, install the config globally using "
        ++ "\"npm install -g " ++ (SOLIUM_SHARABLE_CONFIG_PREFIX ++ upstream)
        ++ "\". Else install locally using " ++ "\"",
        "\".", ?_⟩
      have hx : ("\"npm install --save-dev " : String)
          = "\"" ++ "npm install --save-dev " := by decide
      simp only [sharableNotInstalledMessage, hx, String.append_assoc]
  · intro msg hreq
    have hres : resolveUpstream env upstream
        = .error (sharableLoadFailMessage (SOLIUM_SHARABLE_CONFIG_PREFIX ++ upstream) msg) := by
      unfold resolveUpstream
      rw [if_neg hcond, hreq]
    refine ⟨hres, ⟨"The sharable config \"" ++ (SOLIUM_SHARABLE_CONFIG_PREFIX ++ upstream)
      ++ "\" could not be loaded: ", "", ?_⟩⟩
    simp only [sharableLoadFailMessage, String.append_assoc, String.append_empty]
  · intro config hreq
    have hres : resolveUpstream env upstream
        = (if env.isAValidSharableConfig config then Except.ok config.rules
           else .error (invalidSharableMessage (SOLIUM_SHARABLE_CONFIG_PREFIX ++ upstream)
             (env.inspectedErrors config))) := by
      unfold resolveUpstream
      rw [if_neg hcond, hreq]
    constructor
    · intro hvalid
      rw [hres, if_pos hvalid]
    · intro hinvalid
      have hninv : ¬ (env.isAValidSharableConfig config = true) := by
        rw [hinvalid]
        exact Bool.false_ne_true
      refine ⟨by rw [hres, if_neg hninv], ⟨"Invalid sharable config \""
        ++ (SOLIUM_SHARABLE_CONFIG_PREFIX ++ upstream) ++ "\". AJV message:\n", "", ?_⟩⟩
      simp only [invalidSharableMessage, String.append_assoc, String.append_empty]

/-- Witness for C5: an uninstalled sharable config named by a non-matching
reference produces the install-guidance error. -/
theorem resolveUpstream_sharable_config_witness :
    coreRulesetRegExpTest "myconfig" = false ∧
    resolveUpstream demoEnvNotFound "myconfig"
      = .error (sharableNotInstalledMessage (SOLIUM_SHARABLE_CONFIG_PREFIX ++ "myconfig")) :=
  ⟨by decide, ((resolveUpstream_sharable_config demoEnvNotFound "myconfig"
    (by decide)).2.1 "module not found" rfl).1⟩

/-- Claim C6: `resolvePluginConfig` returns a fresh mapping with exactly one
entry per key of `plugin.rules` (the keys of a JS object are distinct, hence
the hypothesis), keyed `name ++ "/" ++ ruleName`, valued
`plugin.rules[ruleName].meta.docs.type`, in table order and with no other
keys; the inputs are only read, never written. -/
theorem resolvePluginConfig_entries (name : String) (plugin : PluginModule)
    (hnd : (plugin.rules.map Prod.fst).Nodup) :
    resolvePluginConfig name plugin
      = plugin.rules.map (fun p => (name ++ "/" ++ p.1, p.2.meta.docs.type)) :=
  resolvePluginConfig_eq_map name plugin hnd

/-- Witness for C6: `resolvePluginConfig("foo", {rules: {bar:
{meta:{docs:{type:"security"}}}}})` returns exactly `{"foo/bar": "security"}`. -/
theorem resolvePluginConfig_entries_witness :
    (((PluginModule.mk [("bar", ⟨⟨⟨"security"⟩⟩⟩)]).rules.map Prod.fst).Nodup) ∧
    resolvePluginConfig "foo" (PluginModule.mk [("bar", ⟨⟨⟨"security"⟩⟩⟩)])
      = [("foo/bar", "security")] := by
  refine ⟨by decide, ?_⟩
  have h := resolvePluginConfig_entries "foo"
    (PluginModule.mk [("bar", ⟨⟨⟨"security"⟩⟩⟩)]) (by decide)
  exact h.trans (by decide)

/-- Claim C8, round-trip: every key produced by `resolvePluginConfig` from a
plugin name and bare rule names free of `/` contains a `/` — so `load` routes
it to its plugin branch — and the split performed there recovers exactly the
original plugin name as first segment and the bare rule name as second
segment. -/
theorem pluginConfig_key_roundtrip (name : String) (plugin : PluginModule)
    (hname : jsIncludes '/' name = false)
    (hkeys : ∀ p ∈ plugin.rules, jsIncludes '/' p.1 = false)
    (hnd : (plugin.rules.map Prod.fst).Nodup) :
    ∀ entry ∈ resolvePluginConfig name plugin,
      ∃ p ∈ plugin.rules,
        entry.1 = name ++ "/" ++ p.1 ∧
        jsIncludes '/' entry.1 = true ∧
        jsSplit '/' entry.1 = [name, p.1] ∧
        (jsSplit '/' entry.1).getD 0 "" = name ∧
        (jsSplit '/' entry.1).getD 1 "" = p.1 := by
  intro entry hentry
  rw [resolvePluginConfig_eq_map name plugin hnd] at hentry
  rcases List.mem_map.mp hentry with ⟨p, hp, hpe⟩
  have hkey : entry.1 = name ++ "/" ++ p.1 := by rw [← hpe]
  have hsplit : jsSplit '/' entry.1 = [name, p.1] := by
    rw [hkey]
    exact jsSplit_qualified name p.1 hname (hkeys p hp)
  refine ⟨p, hp, hkey, ?_, hsplit, ?_, ?_⟩
  · rw [hkey]
    exact jsIncludes_qualified name p.1
  · rw [hsplit]
    rfl
  · rw [hsplit]
    rfl

/-- Witness for C8 at the key `"foo/bar"` produced from plugin `"foo"` and
bare rule `"bar"`. -/
theorem pluginConfig_key_roundtrip_witness :
    jsIncludes '/' "foo" = false ∧
    ("foo/bar", "security")
      ∈ resolvePluginConfig "foo" (PluginModule.mk [("bar", ⟨⟨⟨"security"⟩⟩⟩)]) ∧
    (∃ p ∈ (PluginModule.mk [("bar", (⟨⟨⟨"security"⟩⟩⟩ : PluginRuleDef))]).rules,
        ("foo/bar", "security").1 = "foo" ++ "/" ++ p.1 ∧
        jsIncludes '/' ("foo/bar", "security").1 = true ∧
        jsSplit '/' ("foo/bar", "security").1 = ["foo", p.1] ∧
        (jsSplit '/' ("foo/bar", "security").1).getD 0 "" = "foo" ∧
        (jsSplit '/' ("foo/bar", "security").1).getD 1 "" = p.1) :=
  ⟨by decide, by decide,
    pluginConfig_key_roundtrip "foo" (PluginModule.mk [("bar", ⟨⟨⟨"security"⟩⟩⟩)])
      (by decide) (by decide) (by decide) ("foo/bar", "security") (by decide)⟩
